import Mathlib

/-!
# Verification of the sse-kit SSE transport library

A shallow embedding, in Lean 4, of the parts of `agenisea/sse-kit` that the
frozen claims are about:

* the SSE wire codec: `formatSSEMessage` (src/server/sse-helpers.ts) and the
  stateful chunk parser `createSSEParser` (src/client/sse-parser.ts);
* the circuit breaker (src/client/circuit-breaker.ts);
* the retry / reconnection manager (src/client/reconnect-strategy.ts);
* the backoff schedule `calculateBackoffDelay` (src/types/stream-config.ts);
* the server-side `StreamOrchestrator` (src/server/stream-orchestrator.ts).

JavaScript strings are embedded as `List Char`; the JSON layer
(`JSON.stringify` / `JSON.parse`) is kept abstract: the codec definitions are
parametrised over a serialisation `st : J → List Char` and a deserialisation
`p : List Char → Option J`, and theorems assume the inverse law
`p (st x) = some x` together with the shape facts that are true of every
`JSON.stringify` output (non-empty, contains no raw newline, does not end in
whitespace).  Asynchronous operations are embedded by passing the operation's
outcome (`Except`) as an explicit value, and timers by explicit step
functions.
-/

set_option autoImplicit false

namespace SseKit

/-! ## Character-list strings and the helpers the JS code uses -/

abbrev Chars := List Char

/-- JS `str.startsWith(pat)` on character lists. -/
def strStarts : Chars → Chars → Bool
  | _, [] => true
  | [], _ :: _ => false
  | c :: cs, p :: ps => c == p && strStarts cs ps

/-- JS `String.prototype.split('\n\n')`: split on leftmost, non-overlapping
occurrences of the two-newline separator, keeping empty fragments. -/
def splitNN : Chars → List Chars
  | [] => [[]]
  | [c] => [[c]]
  | c :: d :: rest =>
    if c == '\n' && d == '\n' then [] :: splitNN rest
    else
      match splitNN (d :: rest) with
      | [] => [[c]]
      | g :: gs => (c :: g) :: gs

/-- JS `String.prototype.split('\n')`. -/
def splitLF : Chars → List Chars
  | [] => [[]]
  | c :: rest =>
    if c == '\n' then [] :: splitLF rest
    else
      match splitLF rest with
      | [] => [[c]]
      | g :: gs => (c :: g) :: gs

/-- JS `Array.prototype.join('\n')`. -/
def joinLF : List Chars → Chars
  | [] => []
  | [l] => l
  | l :: ls => l ++ '\n' :: joinLF ls

/-- JS `String.prototype.trim()` (modelled with Lean's whitespace set). -/
def trimChars (l : Chars) : Chars :=
  ((l.dropWhile Char.isWhitespace).reverse.dropWhile Char.isWhitespace).reverse

/-- `true` when the string holds no two consecutive newline characters, i.e.
it contains no occurrence of the frame separator. -/
def noNN : Chars → Bool
  | [] => true
  | [_] => true
  | c :: d :: rest => !(c == '\n' && d == '\n') && noNN (d :: rest)

/-- Decimal rendering of a natural number, as JS template interpolation
`${message.retry}` does for a non-negative integer. -/
def natToChars (n : Nat) : Chars :=
  if _h : n < 10 then [Char.ofNat (48 + n)]
  else natToChars (n / 10) ++ [Char.ofNat (48 + n % 10)]
decreasing_by exact Nat.div_lt_self (by omega) (by omega)

/-! ## The SSE codec

`formatSSEMessage` is the encoder of src/server/sse-helpers.ts; the stateful
parser is `createSSEParser` of src/client/sse-parser.ts.  The parser state is
its accumulated buffer; one call of the returned `parse` function maps the
buffer and the incoming chunk to the new buffer plus the ordered list of
callback invocations it performs (`onMessage` on a successful `JSON.parse`,
`onError` with the raw payload truncated to 120 characters otherwise). -/

def idColon : Chars := ['i', 'd', ':', ' ']

def retryColon : Chars := ['r', 'e', 't', 'r', 'y', ':', ' ']

def eventColon : Chars := ['e', 'v', 'e', 'n', 't', ':', ' ']

def dataColon : Chars := ['d', 'a', 't', 'a', ':', ' ']

/-- A frame record as accepted by `formatSSEMessage`, with the `data` payload
kept abstract (type `J`). -/
structure SSEMessage (J : Type) where
  id : Option Chars
  retry : Option Nat
  event : Option Chars
  data : J

/-- The optional line for a string-valued field: pushed only when set. -/
def optLine (pre : Chars) : Option Chars → List Chars
  | some v => [pre ++ v]
  | none => []

/-- The optional `retry:` line: pushed only when `retry` is set. -/
def retryLine : Option Nat → List Chars
  | some r => [retryColon ++ natToChars r]
  | none => []

/-- The lines pushed by `formatSSEMessage`: an `id:` line if `id` is set,
then a `retry:` line, then an `event:` line, then the single `data:` line. -/
def messageLines {J : Type} (st : J → Chars) (m : SSEMessage J) : List Chars :=
  optLine idColon m.id ++ retryLine m.retry ++ optLine eventColon m.event ++
    [dataColon ++ st m.data]

/-- `formatSSEMessage` (src/server/sse-helpers.ts, lines 49-69):
`lines.join('\n') + '\n\n'`. -/
def formatSSEMessage {J : Type} (st : J → Chars) (m : SSEMessage J) : Chars :=
  joinLF (messageLines st m) ++ ['\n', '\n']

/-- One callback invocation performed by the parser on a complete frame. -/
inductive ParseEvent (J : Type) where
  | message (payload : J)
  | parseError (raw : Chars)
deriving DecidableEq

/-- The per-line body of the parser loop: comment lines are skipped, `data: `
lines are JSON-parsed, anything else is ignored. -/
def lineEvent {J : Type} (p : Chars → Option J) (line : Chars) :
    Option (ParseEvent J) :=
  if strStarts line [':'] then none
  else if strStarts line dataColon then
    some (match p (line.drop 6) with
      | some j => .message j
      | none => .parseError ((line.drop 6).take 120))
  else none

/-- Processing of one complete frame by `createSSEParser`: trim, skip an
all-blank frame, and run the line loop. -/
def frameEvents {J : Type} (p : Chars → Option J) (msg : Chars) :
    List (ParseEvent J) :=
  let t := trimChars msg
  if t = [] then []
  else (splitLF t).filterMap (lineEvent p)

/-- One call of the `parse` closure of `createSSEParser`
(src/client/sse-parser.ts, lines 474-501): append the chunk to the buffer,
split on `\n\n`, keep the trailing incomplete fragment as the new buffer, and
process every complete frame in order. -/
def parseChunk {J : Type} (p : Chars → Option J) (buf chunk : Chars) :
    Chars × List (ParseEvent J) :=
  let parts := splitNN (buf ++ chunk)
  (parts.getLastD [], parts.dropLast.flatMap (frameEvents p))

/-- Validity of the optional `id` / `event` fields: a set field holds no raw
newline (as any sensible SSE id/event name does). -/
def optFieldOk : Option Chars → Prop
  | some s => '\n' ∉ s
  | none => True

instance : (o : Option Chars) → Decidable (optFieldOk o)
  | none => isTrue trivial
  | some s => inferInstanceAs (Decidable ('\n' ∉ s))

/-- Shape of every `JSON.stringify` output: non-empty, no raw newline
(control characters are escaped), and not ending in whitespace. -/
def JsonShape (s : Chars) : Prop :=
  s ≠ [] ∧ '\n' ∉ s ∧ (s.getLastD ' ').isWhitespace = false

instance (s : Chars) : Decidable (JsonShape s) :=
  inferInstanceAs (Decidable (_ ∧ _ ∧ _))

/-! ## Thrown JavaScript values

`throw` in JS can carry any value.  The embedding distinguishes `Error`
instances (with a `name` and a `message`) from every other thrown value. -/

/-- A value thrown by JS code: an `Error` instance or anything else. -/
inductive JsValue where
  | error (name message : String)
  | primitive (repr : String)
deriving DecidableEq

/-- JS `x instanceof Error`. -/
def instanceofError : JsValue → Bool
  | .error _ _ => true
  | .primitive _ => false

/-- JS `s.toLowerCase()` (ASCII case folding). -/
def lowerStr (s : String) : String :=
  String.mk (s.data.map Char.toLower)

/-- JS `s.includes(pat)`: substring containment. -/
def strIncludes (s pat : List Char) : Bool :=
  match s with
  | [] => strStarts [] pat
  | c :: rest => strStarts (c :: rest) pat || strIncludes rest pat

/-- `isCancellationError` (src/client/reconnect-strategy.ts, lines 41-46):
an `Error` whose lower-cased message contains `aborted`, or whose `name` is
`AbortError`; non-Error values never qualify. -/
def isCancellationError : JsValue → Bool
  | .error name message =>
      strIncludes (lowerStr message).data "aborted".data || name == "AbortError"
  | .primitive _ => false

/-- The fixed indicator list `NETWORK_ERROR_PATTERNS`
(src/client/reconnect-strategy.ts, lines 15-26). -/
def networkErrorPatterns : List String :=
  ["network", "failed to fetch", "load failed", "err_network_changed",
   "networkerror", "aborted", "timeout", "econnreset", "econnrefused",
   "enetunreach"]

/-- `isNetworkError` (src/client/reconnect-strategy.ts, lines 31-36). -/
def isNetworkError : JsValue → Bool
  | .error _ message =>
      networkErrorPatterns.any fun pat =>
        strIncludes (lowerStr message).data pat.data
  | .primitive _ => false

/-! ## Circuit breaker (src/client/circuit-breaker.ts)

The breaker's mutable captures (`state`, `failures`, `successes`,
`lastFailureTime`, `resetTimeout`) form the state record; `Date.now()` is an
explicit `now` argument; the pending one-shot recovery timer is the
`resetPending` flag and its firing is the explicit step `resetTimerFire`. -/

/-- The three circuit states. -/
inductive CircuitState where
  | closed
  | open
  | halfOpen
deriving DecidableEq

/-- `CircuitBreakerConfig` (src/types/stream-config.ts, lines 48-57). -/
structure CircuitBreakerConfig where
  failureThreshold : Nat
  resetTimeoutMs : Int
  successThreshold : Nat
deriving DecidableEq

/-- `DEFAULT_CIRCUIT_BREAKER_CONFIG` (src/types/stream-config.ts). -/
def defaultCircuitBreakerConfig : CircuitBreakerConfig :=
  { failureThreshold := 3, resetTimeoutMs := 30000, successThreshold := 1 }

/-- The breaker's internal state. -/
structure Breaker where
  state : CircuitState
  failures : Nat
  successes : Nat
  lastFailureTime : Int
  resetPending : Bool
deriving DecidableEq

/-- The freshly created breaker. -/
def initBreaker : Breaker :=
  { state := .closed, failures := 0, successes := 0, lastFailureTime := 0,
    resetPending := false }

/-- `reset` (circuit-breaker.ts, lines 157-166): clear the pending timer and
all counters, return to `closed`. -/
def resetBreaker (b : Breaker) : Breaker :=
  { b with resetPending := false, failures := 0, successes := 0,
           lastFailureTime := 0, state := .closed }

/-- `scheduleHalfOpen` (lines 146-155) only replaces the pending one-shot
timer; `resetTimerFire` is that timer firing: enter `half_open` and reset the
success counter. -/
def resetTimerFire (b : Breaker) : Breaker :=
  { b with state := .halfOpen, successes := 0, resetPending := false }

/-- `recordFailure` (lines 121-130): increment the failure count, stamp the
failure time, and open the circuit (scheduling the recovery timer) once the
count reaches the threshold. -/
def recordFailure (cfg : CircuitBreakerConfig) (now : Int) (b : Breaker) :
    Breaker :=
  let b := { b with failures := b.failures + 1, lastFailureTime := now }
  if b.failures ≥ cfg.failureThreshold then
    { b with state := .open, resetPending := true }
  else b

/-- `recordSuccess` (lines 132-144): in `half_open` count successes and fully
reset upon the success threshold; in `closed` clear the failure count; in
`open` do nothing. -/
def recordSuccess (cfg : CircuitBreakerConfig) (b : Breaker) : Breaker :=
  match b.state with
  | .halfOpen =>
      if b.successes + 1 ≥ cfg.successThreshold then resetBreaker b
      else { b with successes := b.successes + 1 }
  | .closed => { b with failures := 0 }
  | .open => b

/-- `canPass` (lines 174-186). -/
def canPass (b : Breaker) : Bool :=
  match b.state with
  | .closed => true
  | .open => false
  | .halfOpen => true

/-- Outcome of one `execute` call. -/
inductive ExecResult (α : Type) where
  | ok (a : α)
  | thrown (e : JsValue)
  | circuitOpen (remainingMs : Int) (failures : Nat)
deriving DecidableEq

/-- `execute` (lines 188-213).  The wrapped async operation is embedded by
its outcome `opResult`; the returned `Bool` records whether the operation was
invoked.  `isF` is the optional custom `isFailure` predicate (`none` means
the default `() => true`). -/
def execute {α : Type} (cfg : CircuitBreakerConfig)
    (isF : Option (JsValue → Bool)) (now : Int) (b : Breaker)
    (opResult : Except JsValue α) : ExecResult α × Breaker × Bool :=
  if !canPass b then
    let timeSinceLastFailure := now - b.lastFailureTime
    (.circuitOpen (max 0 (cfg.resetTimeoutMs - timeSinceLastFailure))
       b.failures, b, false)
  else
    match opResult with
    | .ok a => (.ok a, recordSuccess cfg b, true)
    | .error e =>
        let isFailure := isF.getD fun _ => true
        if instanceofError e && isFailure e then
          (.thrown e, recordFailure cfg now b, true)
        else (.thrown e, b, true)

/-- `n` consecutive failures recorded from the initial breaker, the `i`-th at
time `times i`, with no intervening success. -/
def afterFailures (cfg : CircuitBreakerConfig) (times : Nat → Int) :
    Nat → Breaker
  | 0 => initBreaker
  | n + 1 => recordFailure cfg (times n) (afterFailures cfg times n)

/-! ## Retry / reconnection manager (src/client/reconnect-strategy.ts)

The loops of `withRetry` and of the reconnection manager's `execute` are
embedded as recursions over the attempt counter.  The fallible operation is a
function from the attempt number to its outcome; `sig` is whether the
supplied `AbortSignal` is in the aborted state; the returned `Nat` counts how
many times the operation was invoked. -/

/-- The retry loop of `withRetry` (lines 205-242) from a given attempt
number: try the operation; rethrow immediately on cancellation or an aborted
signal; rethrow when the retry predicate refuses or attempts are exhausted;
otherwise sleep and loop. -/
def withRetryGo {α : Type} (maxRetries : Nat) (shouldRetryFn : JsValue → Bool)
    (sig : Bool) (op : Nat → Except JsValue α) (attempt : Nat) :
    Except JsValue α × Nat :=
  match op attempt with
  | .ok a => (.ok a, 1)
  | .error e =>
      if isCancellationError e || sig then (.error e, 1)
      else if !shouldRetryFn e || decide (attempt ≥ maxRetries) then
        (.error e, 1)
      else
        let r := withRetryGo maxRetries shouldRetryFn sig op (attempt + 1)
        (r.1, r.2 + 1)
termination_by maxRetries + 1 - attempt
decreasing_by
  rename_i h
  simp at h
  omega

/-- `withRetry` itself: start at attempt 0 with the caller's predicate
(default `isNetworkError`). -/
def withRetry {α : Type} (maxRetries : Nat)
    (shouldRetryFn : Option (JsValue → Bool)) (sig : Bool)
    (op : Nat → Except JsValue α) : Except JsValue α × Nat :=
  withRetryGo maxRetries (shouldRetryFn.getD isNetworkError) sig op 0

/-- The `while (true)` loop of the reconnection manager's `execute`
(lines 131-160), at attempt counter value `attempt`: rethrow on cancellation
or aborted signal; rethrow when `shouldRetry` (the fixed
`isNetworkError e && attempt < maxRetries` check) refuses; otherwise wait and
loop with the counter incremented. -/
def rmExecuteGo {α : Type} (maxRetries : Nat) (sig : Bool)
    (op : Nat → Except JsValue α) (attempt : Nat) :
    Except JsValue α × Nat :=
  match op attempt with
  | .ok a => (.ok a, 1)
  | .error e =>
      if isCancellationError e || sig then (.error e, 1)
      else if !(isNetworkError e && decide (attempt < maxRetries)) then
        (.error e, 1)
      else
        let r := rmExecuteGo maxRetries sig op (attempt + 1)
        (r.1, r.2 + 1)
termination_by maxRetries - attempt
decreasing_by
  rename_i h
  simp at h
  omega

/-- The reconnection manager's `execute`: `reset()` puts the attempt counter
at 0 before the loop. -/
def rmExecute {α : Type} (maxRetries : Nat) (sig : Bool)
    (op : Nat → Except JsValue α) : Except JsValue α × Nat :=
  rmExecuteGo maxRetries sig op 0

/-! ## Backoff schedule (src/types/stream-config.ts)

JS numbers are embedded as rationals; `Math.random()` is the explicit draw
`rand ∈ [0, 1)`; `Math.floor` is `Int.floor`. -/

/-- `RetryConfig` (src/types/stream-config.ts, lines 11-29). -/
structure RetryConfig where
  maxRetries : Nat
  initialDelayMs : ℚ
  maxDelayMs : ℚ
  backoffMultiplier : ℚ
  jitter : Bool
  jitterFactor : ℚ

/-- `calculateBackoffDelay` (src/types/stream-config.ts, lines 133-146). -/
def calculateBackoffDelay (attempt : Nat) (config : RetryConfig)
    (rand : ℚ) : ℚ :=
  let exponentialDelay := config.initialDelayMs * config.backoffMultiplier ^ attempt
  let cappedDelay := min exponentialDelay config.maxDelayMs
  if config.jitter then
    let jitterAmount := cappedDelay * config.jitterFactor * rand
    ((⌊cappedDelay + jitterAmount⌋ : ℤ) : ℚ)
  else cappedDelay

/-! ## Stream orchestrator (src/server/stream-orchestrator.ts)

The session state is the orchestrator's private fields plus an explicit model
of the writable sink (`ReadableStreamDefaultController`): the ordered list of
enqueued frames and a closed flag.  `controller.enqueue` and
`controller.close` throw exactly when the sink is already closed (the remote
peer tore the stream down, or it was closed before), which is what the
`Controller is already closed` branches of the source absorb.  Observer hook
invocations are recorded in an event trace; `logger` output and wall-clock
durations are I/O and are not part of the state. -/

/-- One observer hook invocation (`StreamObserver`, lines 34-52). -/
inductive ObsEvent where
  | streamStart
  | streamEnd (success : Bool) (error : Option String)
  | updateSent (phase : String) (bytes : Nat)
  | heartbeat
  | errorHook (message : String)
  | abortHook (reason : String)
deriving DecidableEq

/-- The message of the TypeError a closed controller raises. -/
def controllerClosedMsg : String := "Controller is already closed"

/-- The orchestrator session state. -/
structure OrchState where
  isClosed : Bool
  isAborted : Bool
  bytesSent : Nat
  lastError : Option String
  heartbeatOn : Bool
  listenerOn : Bool
  sinkClosed : Bool
  sink : List String
  events : List ObsEvent
deriving DecidableEq

/-- Total UTF-8 bytes of all frames enqueued into the sink. -/
def sinkBytes (s : OrchState) : Nat :=
  (s.sink.map String.utf8ByteSize).sum

/-- An update value as `sendUpdate` consumes it: its `phase` tag (read for
the observer hook) and its `JSON.stringify` serialisation. -/
structure UpdateV where
  phase : String
  json : String
deriving DecidableEq

/-- `sendUpdate` (lines 168-193): no-op when closed; otherwise encode
`data: <json>\n\n` and enqueue it, counting the bytes and firing the
update-sent hook; an enqueue failure marks the session closed, records the
error and fires the error hook, and is absorbed. -/
def sendUpdate (s : OrchState) (u : UpdateV) : OrchState :=
  if s.isClosed then s
  else if s.sinkClosed then
    { s with isClosed := true, lastError := some controllerClosedMsg,
             events := s.events ++ [.errorHook controllerClosedMsg] }
  else
    let frame := "data: " ++ u.json ++ "\n\n"
    { s with sink := s.sink ++ [frame],
             bytesSent := s.bytesSent + frame.utf8ByteSize,
             events := s.events ++ [.updateSent u.phase frame.utf8ByteSize] }

/-- `sendProgress` (lines 198-200): a projection onto `sendUpdate`; `json`
stands for the serialisation of `{ phase, message }`. -/
def sendProgress (s : OrchState) (phase : String) (json : String) : OrchState :=
  sendUpdate s { phase := phase, json := json }

/-- `sendResult` (lines 205-210), with the configured complete phase. -/
def sendResult (s : OrchState) (completePhase : String) (json : String) :
    OrchState :=
  sendUpdate s { phase := completePhase, json := json }

/-- `sendError` (lines 215-221), with the configured error phase. -/
def sendError (s : OrchState) (errorPhase : String) (json : String) :
    OrchState :=
  sendUpdate s { phase := errorPhase, json := json }

/-- `sendEvent` (lines 242-252): no-op when closed; otherwise enqueue
`event: <type>\ndata: <json>\n\n` without touching the byte counter; an
enqueue failure just marks the session closed and logs. -/
def sendEvent (s : OrchState) (eventType : String) (json : String) :
    OrchState :=
  if s.isClosed then s
  else if s.sinkClosed then { s with isClosed := true }
  else
    let payload := "event: " ++ eventType ++ "\ndata: " ++ json ++ "\n\n"
    { s with sink := s.sink ++ [payload] }

/-- `stopHeartbeat` (lines 295-300). -/
def stopHeartbeat (s : OrchState) : OrchState :=
  { s with heartbeatOn := false }

/-- `startHeartbeat` (lines 260-290): a no-op when disabled or already
running; otherwise the interval timer becomes active. -/
def startHeartbeat (s : OrchState) (enabled : Bool) : OrchState :=
  if !enabled || s.heartbeatOn then s else { s with heartbeatOn := true }

/-- One firing of the heartbeat interval callback (lines 266-289), with the
configured comment message: stop itself if the session closed meanwhile;
otherwise enqueue the `: [<message>]\n\n` comment frame, count its bytes and
fire the heartbeat hook; on an enqueue failure mark the session closed, stop
the timer, record the error and fire the error hook. -/
def heartbeatTick (s : OrchState) (message : String) : OrchState :=
  if !s.heartbeatOn then s
  else if s.isClosed then { s with heartbeatOn := false }
  else if s.sinkClosed then
    { s with isClosed := true, heartbeatOn := false,
             lastError := some controllerClosedMsg,
             events := s.events ++ [.errorHook controllerClosedMsg] }
  else
    let frame := ": [" ++ message ++ "]\n\n"
    { s with sink := s.sink ++ [frame],
             bytesSent := s.bytesSent + frame.utf8ByteSize,
             events := s.events ++ [.heartbeat] }

/-- `handleAbort` (lines 128-152), also the body of `abort(reason)`: no-op if
already closed; otherwise mark aborted and closed, record a synthetic error,
stop the heartbeat, fire the abort and stream-end hooks, close the sink
(tolerating a sink that is already closed) and detach the signal listener. -/
def handleAbort (s : OrchState) (reason : String) : OrchState :=
  if s.isClosed then s
  else
    { s with isAborted := true, lastError := some reason,
             heartbeatOn := false, isClosed := true,
             events := s.events ++
               [.abortHook reason, .streamEnd false (some reason)],
             sinkClosed := true, listenerOn := false }

/-- `close` (lines 305-321): if not closed, stop the heartbeat and detach the
listener, then `try { controller.close(); isClosed = true; onStreamEnd }
catch { log }` — when the sink close throws, the closed flag and the hook are
skipped and the failure is only logged. -/
def close (s : OrchState) : OrchState :=
  if s.isClosed then s
  else
    let s1 := { s with heartbeatOn := false, listenerOn := false }
    if s1.sinkClosed then s1
    else
      { s1 with sinkClosed := true, isClosed := true,
                events := s1.events ++
                  [.streamEnd s1.lastError.isNone s1.lastError] }

/-- `getMetrics` (lines 348-355), minus the wall-clock duration. -/
def getMetrics (s : OrchState) : Nat × Bool × Bool :=
  (s.bytesSent, s.isClosed, s.isAborted)

/-! ## Concrete instances used as witnesses and counterexamples -/

/-- A one-value JSON universe for witnesses: the serialisation of its only
value is the text `null`. -/
def stW : Unit → Chars := fun _ => ['n', 'u', 'l', 'l']

/-- The matching deserialisation: `null` parses back, anything else fails. -/
def pW : Chars → Option Unit :=
  fun s => if s = ['n', 'u', 'l', 'l'] then some () else none

/-- A concrete frame record with all optional fields set. -/
def mW : SSEMessage Unit :=
  { id := some ['7'], retry := some 1500, event := some ['d'], data := () }

/-- A breaker that has tripped open. -/
def bOpenW : Breaker :=
  { state := .open, failures := 3, successes := 0, lastFailureTime := 100,
    resetPending := true }

/-- A cancellation error as `fetch` abortion produces it. -/
def abortErrW : JsValue := .error "AbortError" "The user aborted a request."

/-- A thrown non-Error value. -/
def primitiveThrowW : JsValue := .primitive "boom"

/-- A concrete retry configuration (the library default). -/
def cfgW : RetryConfig :=
  { maxRetries := 3, initialDelayMs := 1000, maxDelayMs := 30000,
    backoffMultiplier := 2, jitter := true, jitterFactor := 3 / 10 }

/-- A healthy open session. -/
def openSessionW : OrchState :=
  { isClosed := false, isAborted := false, bytesSent := 0, lastError := none,
    heartbeatOn := true, listenerOn := true, sinkClosed := false, sink := [],
    events := [] }

/-- A session whose sink the remote peer has already torn down, before the
orchestrator noticed. -/
def brokenSinkSessionW : OrchState :=
  { openSessionW with sinkClosed := true, heartbeatOn := false, listenerOn := false }

/-- A concrete update value. -/
def updateW : UpdateV := { phase := "test", json := "1" }

/-! ## Helper lemmas: splitting, joining and trimming -/

theorem splitNN_ne_nil : ∀ l : Chars, splitNN l ≠ []
  | [] => by simp [splitNN]
  | [c] => by simp [splitNN]
  | c :: d :: rest => by
    rw [splitNN]
    split
    · exact List.cons_ne_nil _ _
    · split <;> exact List.cons_ne_nil _ _

theorem splitNN_noNN : ∀ l : Chars, noNN l = true → splitNN l = [l]
  | [], _ => rfl
  | [_], _ => rfl
  | c :: d :: rest, h => by
    rw [noNN] at h
    simp only [Bool.and_eq_true, Bool.not_eq_true'] at h
    rw [splitNN]
    simp only [h.1, Bool.false_eq_true, if_false]
    rw [splitNN_noNN (d :: rest) h.2]

theorem noNN_take : ∀ (l : Chars) (n : Nat), noNN l = true → noNN (l.take n) = true
  | [], n, _ => by simp [List.take_nil]; cases n <;> simp [noNN]
  | _ :: _, 0, _ => by simp [noNN]
  | c :: rest, n + 1, h => by
    match rest, n with
    | [], _ => simp [List.take_nil]; exact h
    | d :: rest', 0 => simp [noNN]
    | d :: rest', m + 1 =>
      rw [noNN] at h
      simp only [Bool.and_eq_true] at h
      show noNN (c :: d :: List.take m rest') = true
      rw [noNN, Bool.and_eq_true]
      exact ⟨h.1, noNN_take (d :: rest') (m + 1) h.2⟩

theorem noNN_append_of_noLF : ∀ (a c : Chars), '\n' ∉ a → noNN c = true →
    noNN (a ++ c) = true
  | [], c, _, hc => hc
  | x :: a', c, ha, hc => by
    have hx : x ≠ '\n' := fun h => ha (h ▸ List.mem_cons_self x a')
    have ha' : '\n' ∉ a' := fun h => ha (List.mem_cons_of_mem x h)
    have ih := noNN_append_of_noLF a' c ha' hc
    show noNN (x :: (a' ++ c)) = true
    match ha2 : a' ++ c with
    | [] => rfl
    | y :: ys =>
      rw [ha2] at ih
      rw [noNN, Bool.and_eq_true, Bool.not_eq_true']
      exact ⟨by simp [hx], ih⟩

theorem noNN_of_noLF (l : Chars) (h : '\n' ∉ l) : noNN l = true := by
  have := noNN_append_of_noLF l [] h rfl
  simpa using this

theorem noNN_cons_lf (b : Chars) (h1 : b.headD ' ' ≠ '\n') (h2 : noNN b = true) :
    noNN ('\n' :: b) = true := by
  match b with
  | [] => rfl
  | x :: b' =>
    rw [noNN, Bool.and_eq_true, Bool.not_eq_true']
    refine ⟨?_, h2⟩
    simp only [List.headD_cons] at h1
    simp [h1]

theorem noNN_append_single_lf : ∀ a : Chars, noNN a = true →
    a.getLastD ' ' ≠ '\n' → noNN (a ++ ['\n']) = true
  | [], _, _ => rfl
  | [x], _, hl => by
    simp only [List.getLastD_cons, List.getLastD_nil] at hl
    show noNN (x :: '\n' :: []) = true
    rw [noNN, Bool.and_eq_true, Bool.not_eq_true']
    exact ⟨by simp [hl], rfl⟩
  | x :: y :: a', h, hl => by
    rw [noNN, Bool.and_eq_true] at h
    have hl' : (y :: a').getLastD ' ' ≠ '\n' := by
      simpa only [List.getLastD_cons] using hl
    have ih := noNN_append_single_lf (y :: a') h.2 hl'
    show noNN (x :: y :: (a' ++ ['\n'])) = true
    rw [noNN, Bool.and_eq_true]
    exact ⟨h.1, ih⟩

theorem splitNN_terminated : ∀ body : Chars, noNN body = true →
    body.getLastD ' ' ≠ '\n' → splitNN (body ++ ['\n', '\n']) = [body, []]
  | [], _, _ => rfl
  | [x], _, hl => by
    simp only [List.getLastD_cons, List.getLastD_nil] at hl
    show splitNN (x :: '\n' :: ['\n']) = [[x], []]
    rw [splitNN]
    have : (x == '\n' && '\n' == '\n') = false := by simp [hl]
    simp only [this, Bool.false_eq_true, if_false]
    rw [show splitNN ('\n' :: ['\n']) = [[], []] from rfl]
  | x :: y :: body', h, hl => by
    rw [noNN, Bool.and_eq_true, Bool.not_eq_true'] at h
    have hl' : (y :: body').getLastD ' ' ≠ '\n' := by
      simpa only [List.getLastD_cons] using hl
    have ih := splitNN_terminated (y :: body') h.2 hl'
    show splitNN (x :: y :: (body' ++ ['\n', '\n'])) = [x :: y :: body', []]
    rw [splitNN]
    simp only [h.1, Bool.false_eq_true, if_false]
    have : y :: (body' ++ ['\n', '\n']) = (y :: body') ++ ['\n', '\n'] := rfl
    rw [this, ih]

theorem splitLF_noLF : ∀ l : Chars, '\n' ∉ l → splitLF l = [l]
  | [], _ => rfl
  | c :: rest, h => by
    have hc : c ≠ '\n' := fun hx => h (hx ▸ List.mem_cons_self c rest)
    have h' : '\n' ∉ rest := fun hx => h (List.mem_cons_of_mem c hx)
    rw [splitLF]
    have : (c == '\n') = false := by simp [hc]
    simp only [this, Bool.false_eq_true, if_false]
    rw [splitLF_noLF rest h']

theorem splitLF_append_lf : ∀ (a b : Chars), '\n' ∉ a →
    splitLF (a ++ '\n' :: b) = a :: splitLF b
  | [], b, _ => by
    show splitLF ('\n' :: b) = [] :: splitLF b
    rw [splitLF]
    simp
  | c :: a', b, h => by
    have hc : c ≠ '\n' := fun hx => h (hx ▸ List.mem_cons_self c a')
    have h' : '\n' ∉ a' := fun hx => h (List.mem_cons_of_mem c hx)
    show splitLF (c :: (a' ++ '\n' :: b)) = (c :: a') :: splitLF b
    rw [splitLF]
    have : (c == '\n') = false := by simp [hc]
    simp only [this, Bool.false_eq_true, if_false]
    rw [splitLF_append_lf a' b h']

theorem splitLF_joinLF : ∀ ls : List Chars, ls ≠ [] →
    (∀ l ∈ ls, '\n' ∉ l) → splitLF (joinLF ls) = ls
  | [], h, _ => absurd rfl h
  | [l], _, hm => by
    rw [joinLF, splitLF_noLF l (hm l (List.mem_singleton.2 rfl))]
  | l :: l' :: ls', _, hm => by
    rw [show joinLF (l :: l' :: ls') = l ++ '\n' :: joinLF (l' :: ls') from rfl]
    rw [splitLF_append_lf _ _ (hm l (List.mem_cons_self _ _))]
    rw [splitLF_joinLF (l' :: ls') (List.cons_ne_nil _ _)
      (fun x hx => hm x (List.mem_cons_of_mem l hx))]

theorem joinLF_headD (l : Chars) (ls : List Chars) (d : Char) (h : l ≠ []) :
    (joinLF (l :: ls)).headD d = l.headD d := by
  match ls with
  | [] => rfl
  | l' :: ls' =>
    rw [show joinLF (l :: l' :: ls') = l ++ '\n' :: joinLF (l' :: ls') from rfl]
    match l with
    | x :: t => rfl

theorem getLastD_append_right (a b : Chars) (d : Char) (h : b ≠ []) :
    (a ++ b).getLastD d = b.getLastD d := by
  rw [List.getLastD_eq_getLast?, List.getLastD_eq_getLast?,
      List.getLast?_append_of_ne_nil a h]

theorem getLastD_default_irrel : ∀ (l : Chars) (d e : Char), l ≠ [] →
    l.getLastD d = l.getLastD e
  | [_], _, _, _ => by simp [List.getLastD_cons]
  | _ :: _ :: _, _, _, _ => by simp only [List.getLastD_cons]

theorem joinLF_getLastD : ∀ (front : List Chars) (l : Chars) (d : Char),
    l ≠ [] → (joinLF (front ++ [l])).getLastD d = l.getLastD d
  | [], l, d, _ => rfl
  | f :: front', l, d, h => by
    have hne : front' ++ [l] ≠ [] := fun hx => by
      rcases List.append_eq_nil.1 hx with ⟨_, h2⟩; exact List.cons_ne_nil _ _ h2
    match hf : front' ++ [l], hne with
    | g :: gs, _ =>
      rw [show joinLF (f :: front' ++ [l]) = joinLF (f :: (front' ++ [l])) from rfl]
      rw [hf]
      rw [show joinLF (f :: g :: gs) = f ++ '\n' :: joinLF (g :: gs) from rfl]
      rw [getLastD_append_right _ _ _ (List.cons_ne_nil _ _)]
      rw [List.getLastD_cons, ← hf, joinLF_getLastD front' l '\n' h]
      exact getLastD_default_irrel l '\n' d h

theorem trimChars_eq_self (l : Chars) (hne : l ≠ [])
    (h1 : (l.headD ' ').isWhitespace = false)
    (h2 : (l.getLastD ' ').isWhitespace = false) : trimChars l = l := by
  obtain ⟨a, t, rfl⟩ := List.exists_cons_of_ne_nil hne
  simp only [List.headD_cons] at h1
  have step1 : (a :: t).dropWhile Char.isWhitespace = a :: t := by
    rw [List.dropWhile_cons, h1]
    simp
  rw [trimChars, step1]
  have hrev : (a :: t).reverse ≠ [] := by simp
  obtain ⟨b, t', hb⟩ := List.exists_cons_of_ne_nil hrev
  have hlast : (a :: t).getLastD ' ' = b := by
    have := List.head?_reverse (a :: t)
    rw [hb] at this
    rw [List.getLastD_eq_getLast?, ← this]
    rfl
  rw [hb, List.dropWhile_cons]
  rw [hlast] at h2
  simp only [h2, Bool.false_eq_true, if_false]
  rw [← hb, List.reverse_reverse]

/-! ## Helper lemmas: the encoded lines -/

theorem natToChars_noLF (n : Nat) : '\n' ∉ natToChars n := by
  induction n using Nat.strong_induction_on with
  | _ n ih =>
    rw [natToChars]
    split
    · rename_i h
      intro hm
      rw [List.mem_singleton] at hm
      revert hm
      interval_cases n <;> decide
    · rename_i h
      intro hm
      rcases List.mem_append.1 hm with h1 | h1
      · exact ih (n / 10) (Nat.div_lt_self (by omega) (by omega)) h1
      · rw [List.mem_singleton] at h1
        have hk : n % 10 < 10 := Nat.mod_lt _ (by omega)
        revert h1
        generalize n % 10 = k at hk
        interval_cases k <;> decide

theorem lineEvent_skip {J : Type} (p : Chars → Option J) (c : Char)
    (rest : Chars) (h1 : (c == ':') = false) (h2 : (c == 'd') = false) :
    lineEvent p (c :: rest) = none := by
  simp [lineEvent, dataColon, strStarts, h1, h2]

theorem lineEvent_id {J : Type} (p : Chars → Option J) (i : Chars) :
    lineEvent p (idColon ++ i) = none :=
  lineEvent_skip p 'i' (['d', ':', ' '] ++ i) (by decide) (by decide)

theorem lineEvent_retry {J : Type} (p : Chars → Option J) (r : Nat) :
    lineEvent p (retryColon ++ natToChars r) = none :=
  lineEvent_skip p 'r' (['e', 't', 'r', 'y', ':', ' '] ++ natToChars r)
    (by decide) (by decide)

theorem lineEvent_event {J : Type} (p : Chars → Option J) (e : Chars) :
    lineEvent p (eventColon ++ e) = none :=
  lineEvent_skip p 'e' (['v', 'e', 'n', 't', ':', ' '] ++ e)
    (by decide) (by decide)

theorem lineEvent_data {J : Type} (p : Chars → Option J) (sd : Chars) :
    lineEvent p (dataColon ++ sd) =
      some (match p sd with
        | some j => ParseEvent.message j
        | none => ParseEvent.parseError (sd.take 120)) := by
  have h1 : strStarts (dataColon ++ sd) [':'] = false := by
    simp [dataColon, strStarts]
  have h2 : strStarts (dataColon ++ sd) dataColon = true := by
    simp [dataColon, strStarts]
  have h3 : (dataColon ++ sd).drop 6 = sd := by simp [dataColon]
  simp [lineEvent, h1, h2, h3]

/-- Every line of an encoded frame: no raw newline, non-empty, and a
non-whitespace first character. -/
theorem fieldLine_ok (c0 : Char) (pre v : Chars) (hws : c0.isWhitespace = false)
    (hc0 : c0 ≠ '\n') (hpre : '\n' ∉ pre) (hv : '\n' ∉ v) :
    '\n' ∉ (c0 :: pre) ++ v ∧ (c0 :: pre) ++ v ≠ [] ∧
      (((c0 :: pre) ++ v).headD ' ').isWhitespace = false := by
  refine ⟨?_, by simp, by simpa using hws⟩
  intro hmem
  rcases List.mem_append.1 hmem with h | h
  · rcases List.mem_cons.1 h with h' | h'
    · exact hc0 h'.symm
    · exact hpre h'
  · exact hv h

theorem messageLines_ne_nil {J : Type} (st : J → Chars) (m : SSEMessage J) :
    messageLines st m ≠ [] := by
  rw [messageLines]
  intro h
  rcases List.append_eq_nil.1 h with ⟨_, h2⟩
  exact List.cons_ne_nil _ _ h2

theorem messageLines_props {J : Type} (st : J → Chars) (m : SSEMessage J)
    (hid : optFieldOk m.id) (hev : optFieldOk m.event)
    (hd : JsonShape (st m.data)) :
    ∀ l ∈ messageLines st m,
      '\n' ∉ l ∧ l ≠ [] ∧ (l.headD ' ').isWhitespace = false := by
  intro l hl
  rw [messageLines] at hl
  simp only [List.mem_append, List.mem_singleton] at hl
  rcases hl with ((h1 | h2) | h3) | h4
  · match hmid : m.id, h1 with
    | some i, h1 =>
      rw [hmid] at hid
      rw [optLine, List.mem_singleton] at h1
      subst h1
      exact fieldLine_ok 'i' ['d', ':', ' '] i (by decide) (by decide)
        (by decide) hid
  · match hmr : m.retry, h2 with
    | some r, h2 =>
      rw [retryLine, List.mem_singleton] at h2
      subst h2
      exact fieldLine_ok 'r' ['e', 't', 'r', 'y', ':', ' '] (natToChars r)
        (by decide) (by decide) (by decide) (natToChars_noLF r)
  · match hme : m.event, h3 with
    | some e, h3 =>
      rw [hme] at hev
      rw [optLine, List.mem_singleton] at h3
      subst h3
      exact fieldLine_ok 'e' ['v', 'e', 'n', 't', ':', ' '] e (by decide)
        (by decide) (by decide) hev
  · subst h4
    exact fieldLine_ok 'd' ['a', 't', 'a', ':', ' '] (st m.data) (by decide)
      (by decide) (by decide) hd.2.1

/-! ## The encoded frame through the parser -/

theorem joinLF_messageLines_getLastD {J : Type} (st : J → Chars)
    (m : SSEMessage J) (hd : st m.data ≠ []) :
    (joinLF (messageLines st m)).getLastD ' ' = (st m.data).getLastD ' ' := by
  rw [messageLines]
  rw [show optLine idColon m.id ++ retryLine m.retry ++
        optLine eventColon m.event ++ [dataColon ++ st m.data] =
      (optLine idColon m.id ++ retryLine m.retry ++
        optLine eventColon m.event) ++ [dataColon ++ st m.data] from rfl]
  rw [joinLF_getLastD _ _ ' ' (by simp [dataColon])]
  exact getLastD_append_right dataColon (st m.data) ' ' hd

theorem joinLF_messageLines_head {J : Type} (st : J → Chars)
    (m : SSEMessage J) (hid : optFieldOk m.id) (hev : optFieldOk m.event)
    (hd : JsonShape (st m.data)) :
    ((joinLF (messageLines st m)).headD ' ').isWhitespace = false := by
  obtain ⟨L, Ls, hL⟩ := List.exists_cons_of_ne_nil (messageLines_ne_nil st m)
  have hmem : L ∈ messageLines st m := by
    rw [hL]; exact List.mem_cons_self _ _
  have hprops := messageLines_props st m hid hev hd L hmem
  rw [hL, joinLF_headD L Ls ' ' hprops.2.1]
  exact hprops.2.2

theorem joinLF_messageLines_ne_nil {J : Type} (st : J → Chars)
    (m : SSEMessage J) (hd : JsonShape (st m.data)) :
    joinLF (messageLines st m) ≠ [] := by
  intro h
  have := joinLF_messageLines_getLastD st m hd.1
  rw [h] at this
  have hws := hd.2.2
  rw [← this] at hws
  simp [List.getLastD_nil] at hws

theorem frameEvents_format {J : Type} (p : Chars → Option J) (st : J → Chars)
    (m : SSEMessage J) (hinv : p (st m.data) = some m.data)
    (hid : optFieldOk m.id) (hev : optFieldOk m.event)
    (hd : JsonShape (st m.data)) :
    frameEvents p (joinLF (messageLines st m)) = [ParseEvent.message m.data] := by
  have props := messageLines_props st m hid hev hd
  have hlastD := joinLF_messageLines_getLastD st m hd.1
  have hlastws : ((joinLF (messageLines st m)).getLastD ' ').isWhitespace = false := by
    rw [hlastD]; exact hd.2.2
  have hbody_ne := joinLF_messageLines_ne_nil st m hd
  have htrim := trimChars_eq_self (joinLF (messageLines st m)) hbody_ne
    (joinLF_messageLines_head st m hid hev hd) hlastws
  rw [frameEvents]
  simp only [htrim, hbody_ne, if_neg, if_false, reduceIte]
  rw [splitLF_joinLF (messageLines st m) (messageLines_ne_nil st m)
    (fun l hl => (props l hl).1)]
  rcases m with ⟨mid, mretry, mev, mdata⟩
  cases mid <;> cases mretry <;> cases mev <;>
    simp [messageLines, optLine, retryLine, List.filterMap_cons,
      lineEvent_id, lineEvent_retry, lineEvent_event, lineEvent_data, hinv]

theorem noNN_joinLF_messageLines {J : Type} (st : J → Chars)
    (m : SSEMessage J) (hid : optFieldOk m.id) (hev : optFieldOk m.event)
    (hd : JsonShape (st m.data)) :
    noNN (joinLF (messageLines st m)) = true := by
  have hprops : ∀ l ∈ messageLines st m, '\n' ∉ l ∧ l ≠ [] := by
    intro l hl
    have := messageLines_props st m hid hev hd l hl
    exact ⟨this.1, this.2.1⟩
  generalize hls : messageLines st m = ls at hprops
  clear hls
  induction ls with
  | nil => rfl
  | cons l ls' ih =>
    match ls' with
    | [] =>
      rw [joinLF]
      exact noNN_of_noLF l (hprops l (List.mem_cons_self _ _)).1
    | l' :: ls'' =>
      rw [show joinLF (l :: l' :: ls'') = l ++ '\n' :: joinLF (l' :: ls'') from rfl]
      apply noNN_append_of_noLF _ _ (hprops l (List.mem_cons_self _ _)).1
      apply noNN_cons_lf
      · rw [joinLF_headD l' ls'' ' '
          (hprops l' (List.mem_cons_of_mem l (List.mem_cons_self _ _))).2]
        have hmem : l' ∈ l :: l' :: ls'' :=
          List.mem_cons_of_mem l (List.mem_cons_self _ _)
        have hnolf := (hprops l' hmem).1
        have hne := (hprops l' hmem).2
        obtain ⟨x, t, rfl⟩ := List.exists_cons_of_ne_nil hne
        simp only [List.headD_cons]
        exact fun hx => hnolf (hx ▸ List.mem_cons_self _ _)
      · exact ih fun x hx => hprops x (List.mem_cons_of_mem l hx)

theorem joinLF_messageLines_last_ne_lf {J : Type} (st : J → Chars)
    (m : SSEMessage J) (hd : JsonShape (st m.data)) :
    (joinLF (messageLines st m)).getLastD ' ' ≠ '\n' := by
  rw [joinLF_messageLines_getLastD st m hd.1]
  intro hx
  have := hd.2.2
  rw [hx] at this
  simp at this

/-- Feeding one whole encoded frame to a fresh parser: the buffer is fully
consumed and the message callback fires exactly once with the decoded
payload.  This is the shared engine behind the round-trip and chunk-split
claims. -/
theorem parseChunk_format {J : Type} (p : Chars → Option J) (st : J → Chars)
    (m : SSEMessage J) (hinv : p (st m.data) = some m.data)
    (hid : optFieldOk m.id) (hev : optFieldOk m.event)
    (hd : JsonShape (st m.data)) :
    parseChunk p [] (formatSSEMessage st m) = ([], [ParseEvent.message m.data]) := by
  have hnn := noNN_joinLF_messageLines st m hid hev hd
  have hlast_ne := joinLF_messageLines_last_ne_lf st m hd
  rw [parseChunk]
  rw [show ([] : Chars) ++ formatSSEMessage st m = formatSSEMessage st m from rfl]
  rw [formatSSEMessage, splitNN_terminated _ hnn hlast_ne]
  simp only [List.getLastD_cons, List.getLastD_nil, List.dropLast]
  simp only [List.flatMap_cons, List.flatMap_nil, List.append_nil]
  rw [frameEvents_format p st m hinv hid hev hd]

/-! ## Claim C1 -/

/-- C1.  Codec round-trip: for every frame record whose data payload is
JSON-serializable (embedded as: the deserialisation inverts the
serialisation and the serialised payload has the shape of `JSON.stringify`
output, with the optional `id`/`event` fields free of raw newlines),
encoding with `formatSSEMessage` and feeding the text to a fresh
`createSSEParser` parser invokes the message callback exactly once, with a
payload equal to the original `data` field, and leaves an empty buffer. -/
theorem claim_C1_roundtrip {J : Type} (p : Chars → Option J) (st : J → Chars)
    (m : SSEMessage J) (hinv : p (st m.data) = some m.data)
    (hid : optFieldOk m.id) (hev : optFieldOk m.event)
    (hd : JsonShape (st m.data)) :
    parseChunk p [] (formatSSEMessage st m) =
      ([], [ParseEvent.message m.data]) :=
  parseChunk_format p st m hinv hid hev hd

/-- Witness for C1 at a concrete frame record with all optional fields
set. -/
theorem claim_C1_roundtrip_witness :
    pW (stW mW.data) = some mW.data ∧ optFieldOk mW.id ∧ optFieldOk mW.event ∧
      JsonShape (stW mW.data) ∧
      parseChunk pW [] (formatSSEMessage stW mW) =
        ([], [ParseEvent.message ()]) :=
  ⟨by decide, by decide, by decide, by decide,
    claim_C1_roundtrip pW stW mW (by decide) (by decide) (by decide)
      (by decide)⟩

/-! ## Claim C2 -/

/-- C2.  Chunk-split invariance: for every encoded frame text and every split
position `k`, feeding the two pieces sequentially to a fresh parser yields
exactly one decoded message, identical to feeding the unsplit text; and for
every `k` short of the text's end (so the double-newline terminator has not
fully arrived) the first piece triggers no JSON-parse attempt — the parser
performs no callback at all on it. -/
theorem claim_C2_chunk_split {J : Type} (p : Chars → Option J)
    (st : J → Chars) (m : SSEMessage J) (k : Nat)
    (hinv : p (st m.data) = some m.data) (hid : optFieldOk m.id)
    (hev : optFieldOk m.event) (hd : JsonShape (st m.data)) :
    ((parseChunk p (parseChunk p [] ((formatSSEMessage st m).take k)).1
        ((formatSSEMessage st m).drop k)).1 = [] ∧
      (parseChunk p [] ((formatSSEMessage st m).take k)).2 ++
        (parseChunk p (parseChunk p [] ((formatSSEMessage st m).take k)).1
          ((formatSSEMessage st m).drop k)).2 =
        [ParseEvent.message m.data]) ∧
    (k < (formatSSEMessage st m).length →
      (parseChunk p [] ((formatSSEMessage st m).take k)).2 = []) := by
  have hfull := parseChunk_format p st m hinv hid hev hd
  by_cases hk : k < (formatSSEMessage st m).length
  · have hk' : k ≤ (joinLF (messageLines st m) ++ ['\n']).length := by
      rw [formatSSEMessage] at hk
      simp only [List.length_append, List.length_cons, List.length_nil] at *
      omega
    have htake : (formatSSEMessage st m).take k =
        (joinLF (messageLines st m) ++ ['\n']).take k := by
      rw [formatSSEMessage]
      rw [show joinLF (messageLines st m) ++ ['\n', '\n'] =
          (joinLF (messageLines st m) ++ ['\n']) ++ ['\n'] from by simp]
      exact List.take_append_of_le_length hk'
    have hnnp : noNN ((formatSSEMessage st m).take k) = true := by
      rw [htake]
      exact noNN_take _ k
        (noNN_append_single_lf _ (noNN_joinLF_messageLines st m hid hev hd)
          (joinLF_messageLines_last_ne_lf st m hd))
    have hr1 : parseChunk p [] ((formatSSEMessage st m).take k) =
        ((formatSSEMessage st m).take k, []) := by
      rw [parseChunk]
      rw [show ([] : Chars) ++ (formatSSEMessage st m).take k =
          (formatSSEMessage st m).take k from rfl]
      rw [splitNN_noNN _ hnnp]
      rfl
    have hr2 : parseChunk p ((formatSSEMessage st m).take k)
        ((formatSSEMessage st m).drop k) = ([], [ParseEvent.message m.data]) := by
      rw [show parseChunk p ((formatSSEMessage st m).take k)
            ((formatSSEMessage st m).drop k) =
          parseChunk p [] ((formatSSEMessage st m).take k ++
            (formatSSEMessage st m).drop k) from rfl]
      rw [List.take_append_drop]
      exact hfull
    rw [hr1, hr2]
    exact ⟨⟨rfl, rfl⟩, fun _ => rfl⟩
  · have hk2 : (formatSSEMessage st m).length ≤ k := Nat.le_of_not_lt hk
    have htake : (formatSSEMessage st m).take k = formatSSEMessage st m :=
      List.take_of_length_le hk2
    have hdrop : (formatSSEMessage st m).drop k = [] :=
      List.drop_eq_nil_of_le hk2
    rw [htake, hdrop, hfull]
    exact ⟨⟨rfl, rfl⟩, fun hcon => absurd hcon hk⟩

/-- Witness for C2: the concrete frame of the C1 witness split after its
seventh character, inside the `id:` line. -/
theorem claim_C2_chunk_split_witness :
    pW (stW mW.data) = some mW.data ∧ optFieldOk mW.id ∧ optFieldOk mW.event ∧
      JsonShape (stW mW.data) ∧
      (((parseChunk pW (parseChunk pW [] ((formatSSEMessage stW mW).take 7)).1
          ((formatSSEMessage stW mW).drop 7)).1 = [] ∧
        (parseChunk pW [] ((formatSSEMessage stW mW).take 7)).2 ++
          (parseChunk pW (parseChunk pW [] ((formatSSEMessage stW mW).take 7)).1
            ((formatSSEMessage stW mW).drop 7)).2 =
          [ParseEvent.message mW.data]) ∧
      (7 < (formatSSEMessage stW mW).length →
        (parseChunk pW [] ((formatSSEMessage stW mW).take 7)).2 = [])) :=
  ⟨by decide, by decide, by decide, by decide,
    claim_C2_chunk_split pW stW mW 7 (by decide) (by decide) (by decide)
      (by decide)⟩

/-! ## Claims C3, C4, C5: the circuit breaker -/

theorem afterFailures_closed (cfg : CircuitBreakerConfig) (times : Nat → Int) :
    ∀ j, j < cfg.failureThreshold →
      (afterFailures cfg times j).state = .closed ∧
      (afterFailures cfg times j).failures = j := by
  intro j
  induction j with
  | zero => exact fun _ => ⟨rfl, rfl⟩
  | succ n ih =>
    intro h
    have hn := ih (by omega)
    simp only [afterFailures, recordFailure, hn.2]
    have hcond : ¬ (n + 1 ≥ cfg.failureThreshold) := by omega
    rw [if_neg hcond]
    exact ⟨hn.1, rfl⟩

/-- C3.  Failure threshold: with `failureThreshold = N > 0`, after any
sequence of fewer than `N` consecutive recorded failures (no intervening
success) from the initial state the breaker reports `closed`, and exactly
upon the `N`-th consecutive failure it reports `open`.  The failure times are
arbitrary. -/
theorem claim_C3_failure_threshold (cfg : CircuitBreakerConfig)
    (times : Nat → Int) (h : 0 < cfg.failureThreshold) :
    (∀ j, j < cfg.failureThreshold →
      (afterFailures cfg times j).state = .closed) ∧
    (afterFailures cfg times cfg.failureThreshold).state = .open := by
  refine ⟨fun j hj => (afterFailures_closed cfg times j hj).1, ?_⟩
  obtain ⟨K, hK⟩ : ∃ K, cfg.failureThreshold = K + 1 :=
    ⟨cfg.failureThreshold - 1, by omega⟩
  have hn := afterFailures_closed cfg times K (by omega)
  rw [hK]
  simp only [afterFailures, recordFailure, hn.2]
  rw [if_pos (by omega)]

/-- Witness for C3 at the default configuration (threshold 3). -/
theorem claim_C3_failure_threshold_witness :
    0 < defaultCircuitBreakerConfig.failureThreshold ∧
    (afterFailures defaultCircuitBreakerConfig (fun _ => 0) 2).state =
      .closed ∧
    (afterFailures defaultCircuitBreakerConfig (fun _ => 0) 3).state = .open :=
  ⟨by decide,
   (claim_C3_failure_threshold defaultCircuitBreakerConfig (fun _ => 0)
      (by decide)).1 2 (by decide),
   (claim_C3_failure_threshold defaultCircuitBreakerConfig (fun _ => 0)
      (by decide)).2⟩

/-- C4.  Circuit-open refusal: when the state is `open`, `execute` rejects
with a `CircuitOpenError` carrying the remaining time until the next recovery
probe (`max 0 (resetTimeoutMs - timeSinceLastFailure)`) and the current
failure count, and the wrapped operation is never invoked; in the `closed`
and `half_open` states the operation is invoked. -/
theorem claim_C4_open_refusal {α : Type} (cfg : CircuitBreakerConfig)
    (isF : Option (JsValue → Bool)) (now : Int) (b : Breaker)
    (opResult : Except JsValue α) :
    (b.state = .open →
      execute cfg isF now b opResult =
        (.circuitOpen (max 0 (cfg.resetTimeoutMs - (now - b.lastFailureTime)))
          b.failures, b, false)) ∧
    (b.state = .closed ∨ b.state = .halfOpen →
      (execute cfg isF now b opResult).2.2 = true) := by
  constructor
  · intro h
    have hcp : canPass b = false := by rw [canPass, h]
    simp [execute, hcp]
  · intro h
    have hcp : canPass b = true := by rcases h with h | h <;> rw [canPass, h]
    cases opResult with
    | ok a => simp [execute, hcp]
    | error e =>
      rw [execute]
      simp only [hcp, Bool.not_true, Bool.false_eq_true, if_false]
      split <;> rfl

/-- Witness for C4: an open breaker refuses with the remaining cool-down and
failure count, and a fresh (closed) breaker lets the operation run. -/
theorem claim_C4_open_refusal_witness :
    bOpenW.state = .open ∧
    execute defaultCircuitBreakerConfig none 10100 bOpenW (Except.ok ()) =
      (.circuitOpen (max 0 (defaultCircuitBreakerConfig.resetTimeoutMs -
          (10100 - bOpenW.lastFailureTime))) bOpenW.failures, bOpenW,
        false) ∧
    (execute defaultCircuitBreakerConfig none 0 initBreaker
        (Except.ok ())).2.2 = true :=
  ⟨rfl,
   (claim_C4_open_refusal defaultCircuitBreakerConfig none 10100 bOpenW
      (Except.ok ())).1 rfl,
   (claim_C4_open_refusal defaultCircuitBreakerConfig none 0 initBreaker
      (Except.ok ())).2 (Or.inl rfl)⟩

/-- C5 counterexample: with the default failure predicate, a thrown
non-`Error` value (JS `throw "boom"`) is rethrown unchanged but the failure
count does NOT increment — `execute` only records failures for values passing
`error instanceof Error`, refuting the claim's "throws any value". -/
theorem claim_C5_counterexample :
    (execute defaultCircuitBreakerConfig none 0 initBreaker
        (Except.error primitiveThrowW : Except JsValue Unit)) =
      (.thrown primitiveThrowW, initBreaker, true) ∧
    (execute defaultCircuitBreakerConfig none 0 initBreaker
        (Except.error primitiveThrowW : Except JsValue Unit)).2.1.failures ≠
      initBreaker.failures + 1 := by
  decide

/-- C5 amended: when the breaker passes the call and the operation throws,
the original value is always rethrown unchanged; with the default failure
predicate the failure is recorded (the count increments) exactly when the
thrown value is an `Error` instance, and a thrown non-`Error` value leaves
the breaker untouched. -/
theorem claim_C5_default_failure_recording {α : Type}
    (cfg : CircuitBreakerConfig) (now : Int) (b : Breaker) (e : JsValue)
    (h : canPass b = true) :
    execute (α := α) cfg none now b (.error e) =
      (.thrown e,
        if instanceofError e then recordFailure cfg now b else b, true) ∧
    (recordFailure cfg now b).failures = b.failures + 1 := by
  constructor
  · rw [execute]
    simp only [h, Bool.not_true, Bool.false_eq_true, if_false]
    cases hie : instanceofError e <;> simp [hie]
  · rw [recordFailure]
    split <;> rfl

/-- Witness for the amended C5: a fresh breaker, a thrown `Error`. -/
theorem claim_C5_default_failure_recording_witness :
    canPass initBreaker = true ∧
    execute defaultCircuitBreakerConfig none 5 initBreaker
        (Except.error abortErrW : Except JsValue Unit) =
      (.thrown abortErrW,
        if instanceofError abortErrW then
          recordFailure defaultCircuitBreakerConfig 5 initBreaker
        else initBreaker, true) ∧
    (recordFailure defaultCircuitBreakerConfig 5 initBreaker).failures =
      initBreaker.failures + 1 :=
  ⟨by decide,
   (claim_C5_default_failure_recording (α := Unit) defaultCircuitBreakerConfig
      5 initBreaker abortErrW (by decide)).1,
   (claim_C5_default_failure_recording (α := Unit) defaultCircuitBreakerConfig
      5 initBreaker abortErrW (by decide)).2⟩

/-! ## Claim C6: cancellation is never retried -/

/-- C6.  For both `withRetry` (with any caller-supplied retry predicate, or
the default) and the reconnection manager's `execute`, if the operation's
first attempt fails with a cancellation error or the supplied signal is
already aborted, the error is rethrown immediately: the operation ran exactly
once and no retry attempt follows, regardless of `maxRetries`. -/
theorem claim_C6_cancellation_never_retried {α : Type} (maxRetries : Nat)
    (shouldRetryFn : Option (JsValue → Bool)) (sig : Bool)
    (op : Nat → Except JsValue α) (e : JsValue)
    (hop : op 0 = .error e)
    (hc : isCancellationError e = true ∨ sig = true) :
    withRetry maxRetries shouldRetryFn sig op = (.error e, 1) ∧
    rmExecute maxRetries sig op = (.error e, 1) := by
  have hcond : (isCancellationError e || sig) = true := by
    rcases hc with h | h <;> simp [h]
  constructor
  · rw [withRetry, withRetryGo, hop]
    simp [hcond]
  · rw [rmExecute, rmExecuteGo, hop]
    simp [hcond]

/-- Witness for C6: an `AbortError` on the first attempt, three retries
still available. -/
theorem claim_C6_cancellation_never_retried_witness :
    isCancellationError abortErrW = true ∧
    withRetry 3 none false
        (fun _ => (.error abortErrW : Except JsValue Unit)) =
      (.error abortErrW, 1) ∧
    rmExecute 3 false (fun _ => (.error abortErrW : Except JsValue Unit)) =
      (.error abortErrW, 1) :=
  ⟨by decide,
   (claim_C6_cancellation_never_retried 3 none false
      (fun _ => (.error abortErrW : Except JsValue Unit)) abortErrW rfl
      (Or.inl (by decide))).1,
   (claim_C6_cancellation_never_retried 3 none false
      (fun _ => (.error abortErrW : Except JsValue Unit)) abortErrW rfl
      (Or.inl (by decide))).2⟩

/-! ## Claim C7: the backoff formula -/

/-- C7.  With jitter disabled `calculateBackoffDelay(k, cfg)` equals
`min(initialDelayMs * backoffMultiplier ^ k, maxDelayMs)` exactly; with
jitter enabled and `rand` the `Math.random()` draw in `[0, 1)`, the result is
the floor of the capped delay plus the amount `cappedDelay * jitterFactor *
rand`, which ranges over `[0, cappedDelay * jitterFactor)` (and is exactly 0
in the degenerate case `cappedDelay * jitterFactor = 0`). -/
theorem claim_C7_backoff_formula (attempt : Nat) (config : RetryConfig)
    (rand : ℚ) (hinit : 0 ≤ config.initialDelayMs)
    (hmax : 0 ≤ config.maxDelayMs) (hmult : 0 ≤ config.backoffMultiplier)
    (hjf : 0 ≤ config.jitterFactor) (hr0 : 0 ≤ rand) (hr1 : rand < 1) :
    (config.jitter = false →
      calculateBackoffDelay attempt config rand =
        min (config.initialDelayMs * config.backoffMultiplier ^ attempt)
          config.maxDelayMs) ∧
    (config.jitter = true →
      calculateBackoffDelay attempt config rand =
        ((⌊min (config.initialDelayMs * config.backoffMultiplier ^ attempt)
              config.maxDelayMs +
            min (config.initialDelayMs * config.backoffMultiplier ^ attempt)
              config.maxDelayMs * config.jitterFactor * rand⌋ : ℤ) : ℚ) ∧
      0 ≤ min (config.initialDelayMs * config.backoffMultiplier ^ attempt)
            config.maxDelayMs * config.jitterFactor * rand ∧
      (0 < min (config.initialDelayMs * config.backoffMultiplier ^ attempt)
            config.maxDelayMs * config.jitterFactor →
        min (config.initialDelayMs * config.backoffMultiplier ^ attempt)
            config.maxDelayMs * config.jitterFactor * rand <
          min (config.initialDelayMs * config.backoffMultiplier ^ attempt)
            config.maxDelayMs * config.jitterFactor)) := by
  have hC : 0 ≤ min (config.initialDelayMs * config.backoffMultiplier ^ attempt)
      config.maxDelayMs :=
    le_min (mul_nonneg hinit (pow_nonneg hmult _)) hmax
  refine ⟨fun hj => ?_, fun hj => ⟨?_, ?_, fun hpos => ?_⟩⟩
  · rw [calculateBackoffDelay]
    simp [hj]
  · rw [calculateBackoffDelay]
    simp [hj]
  · exact mul_nonneg (mul_nonneg hC hjf) hr0
  · calc min (config.initialDelayMs * config.backoffMultiplier ^ attempt)
          config.maxDelayMs * config.jitterFactor * rand
        < min (config.initialDelayMs * config.backoffMultiplier ^ attempt)
            config.maxDelayMs * config.jitterFactor * 1 :=
          mul_lt_mul_of_pos_left hr1 hpos
      _ = min (config.initialDelayMs * config.backoffMultiplier ^ attempt)
            config.maxDelayMs * config.jitterFactor := mul_one _

/-- Witness for C7 at the default configuration (jitter on, factor 3/10),
attempt 2, random draw 1/2. -/
theorem claim_C7_backoff_formula_witness :
    cfgW.jitter = true ∧
    calculateBackoffDelay 2 cfgW (1 / 2) =
      ((⌊min (cfgW.initialDelayMs * cfgW.backoffMultiplier ^ 2)
            cfgW.maxDelayMs +
          min (cfgW.initialDelayMs * cfgW.backoffMultiplier ^ 2)
            cfgW.maxDelayMs * cfgW.jitterFactor * (1 / 2)⌋ : ℤ) : ℚ) :=
  ⟨rfl,
   ((claim_C7_backoff_formula 2 cfgW (1 / 2) (by norm_num [cfgW])
      (by norm_num [cfgW]) (by norm_num [cfgW]) (by norm_num [cfgW])
      (by norm_num) (by norm_num)).2 rfl).1⟩

/-! ## Claims C8, C9: closing the session -/

/-- What `close` does, split on whether closing the sink throws: the
heartbeat and the listener are always torn down; marking the session closed
and firing the stream-end hook (with success = no prior recorded error)
happen only when the sink close did not throw. -/
theorem close_spec (s : OrchState) (h : s.isClosed = false) :
    (s.sinkClosed = false →
      close s = { s with
        heartbeatOn := false
        listenerOn := false
        sinkClosed := true
        isClosed := true
        events := s.events ++ [.streamEnd s.lastError.isNone s.lastError] }) ∧
    (s.sinkClosed = true →
      close s = { s with
        heartbeatOn := false
        listenerOn := false }) := by
  constructor
  · intro hs
    rw [close]
    simp [h, hs]
  · intro hs
    rw [close]
    simp [h, hs]

theorem handleAbort_isClosed (s : OrchState) (r : String) :
    (handleAbort s r).isClosed = true := by
  rw [handleAbort]
  split
  · rename_i h
    exact h
  · rfl

/-- C8 counterexample: a session whose sink the peer already tore down.
`close()` completes (the sink-close failure is only logged) without marking
the session closed, and the next `sendUpdate` then mutates the session state
(closed flag, last error), refuting the claim's "leaves the session state
unchanged" — even though it writes no bytes and throws nothing. -/
theorem claim_C8_counterexample :
    (close brokenSinkSessionW).isClosed = false ∧
    sendUpdate (close brokenSinkSessionW) updateW ≠ close brokenSinkSessionW ∧
    (sendUpdate (close brokenSinkSessionW) updateW).sink =
      (close brokenSinkSessionW).sink := by
  decide

/-- C8 amended: after `abort()`, and after any `close()` that marked the
session closed (always, except when closing the sink itself threw), every
send operation is an exact no-op: no bytes written, nothing thrown, state
untouched.  After a `close()` whose sink close threw, a send still writes no
bytes and throws nothing, but records the delivery failure. -/
theorem claim_C8_send_after_close (s s2 : OrchState) (u : UpdateV)
    (t pj r : String) :
    (s.isClosed = true →
      sendUpdate s u = s ∧ sendEvent s t pj = s ∧ sendProgress s t pj = s ∧
      sendResult s t pj = s ∧ sendError s t pj = s) ∧
    sendUpdate (handleAbort s2 r) u = handleAbort s2 r ∧
    (sendUpdate (close s2) u).sink = (close s2).sink ∧
    ((close s2).isClosed = true → sendUpdate (close s2) u = close s2) := by
  have noop : ∀ (s3 : OrchState) (u3 : UpdateV), s3.isClosed = true →
      sendUpdate s3 u3 = s3 := by
    intro s3 u3 h3
    rw [sendUpdate]
    simp [h3]
  refine ⟨fun h => ⟨noop s u h, ?_, noop s ⟨t, pj⟩ h, noop s ⟨t, pj⟩ h,
    noop s ⟨t, pj⟩ h⟩, ?_, ?_, ?_⟩
  · rw [sendEvent]
    simp [h]
  · exact noop _ u (handleAbort_isClosed s2 r)
  · by_cases hc : s2.isClosed
    · have : close s2 = s2 := by rw [close]; simp [hc]
      rw [this, noop s2 u hc]
    · have hspec := close_spec s2 (by simpa using hc)
      by_cases hs : s2.sinkClosed
      · rw [hspec.2 hs]
        rw [sendUpdate]
        simp [hs, hc]
      · rw [hspec.1 (by simpa using hs)]
        rw [sendUpdate]
        simp
  · intro hcl
    exact noop _ u hcl

/-- Witness for C8 (amended): a healthy session that was closed normally;
every send afterwards is the identity. -/
theorem claim_C8_send_after_close_witness :
    (close openSessionW).isClosed = true ∧
    (sendUpdate (close openSessionW) updateW = close openSessionW ∧
      sendEvent (close openSessionW) "done" "1" = close openSessionW ∧
      sendProgress (close openSessionW) "done" "1" = close openSessionW ∧
      sendResult (close openSessionW) "done" "1" = close openSessionW ∧
      sendError (close openSessionW) "done" "1" = close openSessionW) :=
  ⟨by decide,
   (claim_C8_send_after_close (close openSessionW) openSessionW updateW
      "done" "1" "r").1 (by decide)⟩

/-- C9 counterexample: on a session whose sink is already torn down,
`close()` returns without marking the session closed and without firing the
stream-end hook, refuting the claim's "even when closing the sink itself
throws". -/
theorem claim_C9_counterexample :
    brokenSinkSessionW.isClosed = false ∧
    (close brokenSinkSessionW).isClosed = false ∧
    (close brokenSinkSessionW).events = [] := by
  decide

/-- C9 amended: on a session that is not already closed, `close()` always
stops the heartbeat and detaches the external-signal listener; when closing
the sink does not throw it also closes the sink, marks the session closed and
fires the stream-end hook with success = (no prior error recorded); when the
sink close throws, the failure is only logged — the closed flag stays unset
and the hook does not fire. -/
theorem claim_C9_close_postcondition (s : OrchState) (h : s.isClosed = false) :
    (close s).heartbeatOn = false ∧ (close s).listenerOn = false ∧
    (s.sinkClosed = false →
      close s = { s with
        heartbeatOn := false
        listenerOn := false
        sinkClosed := true
        isClosed := true
        events := s.events ++ [.streamEnd s.lastError.isNone s.lastError] }) ∧
    (s.sinkClosed = true →
      close s = { s with
        heartbeatOn := false
        listenerOn := false }) := by
  have hspec := close_spec s h
  refine ⟨?_, ?_, hspec.1, hspec.2⟩
  · by_cases hs : s.sinkClosed
    · rw [hspec.2 hs]
    · rw [hspec.1 (by simpa using hs)]
  · by_cases hs : s.sinkClosed
    · rw [hspec.2 hs]
    · rw [hspec.1 (by simpa using hs)]

/-- Witness for C9 (amended) on a healthy open session. -/
theorem claim_C9_close_postcondition_witness :
    openSessionW.isClosed = false ∧
    ((close openSessionW).heartbeatOn = false ∧
      (close openSessionW).listenerOn = false ∧
      (openSessionW.sinkClosed = false →
        close openSessionW = { openSessionW with
          heartbeatOn := false
          listenerOn := false
          sinkClosed := true
          isClosed := true
          events := openSessionW.events ++
            [.streamEnd openSessionW.lastError.isNone
              openSessionW.lastError] }) ∧
      (openSessionW.sinkClosed = true →
        close openSessionW = { openSessionW with
          heartbeatOn := false
          listenerOn := false })) :=
  ⟨by decide, claim_C9_close_postcondition openSessionW (by decide)⟩

/-! ## Claim C10: byte accounting -/

/-- C10.  `bytesSent` counts exactly the bytes of the frames written by
`sendUpdate` and by the heartbeat tick (their `bytesSent` delta equals their
sink-bytes delta), while `sendEvent` never adds to `bytesSent` even though it
does write its frame to the sink on the happy path. -/
theorem claim_C10_bytes_accounting (s : OrchState) (u : UpdateV)
    (t d hb : String) :
    ((sendUpdate s u).bytesSent + sinkBytes s =
      s.bytesSent + sinkBytes (sendUpdate s u)) ∧
    ((heartbeatTick s hb).bytesSent + sinkBytes s =
      s.bytesSent + sinkBytes (heartbeatTick s hb)) ∧
    ((sendEvent s t d).bytesSent = s.bytesSent) ∧
    (s.isClosed = false → s.sinkClosed = false →
      sendEvent s t d = { s with sink := s.sink ++
        ["event: " ++ t ++ "\ndata: " ++ d ++ "\n\n"] }) := by
  refine ⟨?_, ?_, ?_, fun h1 h2 => ?_⟩
  · rw [sendUpdate]
    split
    · rfl
    · split
      · rfl
      · simp [sinkBytes, List.map_append, List.sum_append]
        omega
  · rw [heartbeatTick]
    split
    · rfl
    · split
      · rfl
      · split
        · rfl
        · simp [sinkBytes, List.map_append, List.sum_append]
          omega
  · rw [sendEvent]
    split
    · rfl
    · split <;> rfl
  · rw [sendEvent]
    simp [h1, h2]

/-- Witness for C10 on a healthy open session. -/
theorem claim_C10_bytes_accounting_witness :
    openSessionW.isClosed = false ∧ openSessionW.sinkClosed = false ∧
    (((sendUpdate openSessionW updateW).bytesSent + sinkBytes openSessionW =
        openSessionW.bytesSent +
          sinkBytes (sendUpdate openSessionW updateW)) ∧
      ((heartbeatTick openSessionW "heartbeat").bytesSent +
          sinkBytes openSessionW =
        openSessionW.bytesSent +
          sinkBytes (heartbeatTick openSessionW "heartbeat")) ∧
      ((sendEvent openSessionW "done" "1").bytesSent =
        openSessionW.bytesSent) ∧
      (openSessionW.isClosed = false → openSessionW.sinkClosed = false →
        sendEvent openSessionW "done" "1" = { openSessionW with
          sink := openSessionW.sink ++
            ["event: " ++ "done" ++ "\ndata: " ++ "1" ++ "\n\n"] })) :=
  ⟨by decide, by decide,
   claim_C10_bytes_accounting openSessionW updateW "done" "1" "heartbeat"⟩

end SseKit
